import Mathlib

/-!
Verification development for the travel-plan-agent repository.

This file shallowly embeds the time-constrained itinerary scheduler of the
repository (src/api_tools.py, src/planning_tools.py, src/nodes.py,
src/llm_agent.py, src/graph.py, src/config.py, src/state.py) and proves or
refutes the testable properties stated for it.

Modelling conventions:
* Python floats are modelled as exact rationals (ℚ).  The only nontrivial
  float operation in the embedded code is round(x, 1), modelled below by
  round1 using mathematical rounding (the half-way tie behaviour of Python
  bankers rounding is never exercised by any statement in this file).
* datetime instants are modelled as rational numbers of minutes on a global
  timeline; timedelta(minutes=m) becomes addition of m.
* Python dict records growing through the pipeline are modelled by one
  structure per pipeline stage; keys that may be absent are Option fields.
* Python truthiness of an optional float (None and 0.0 are falsy) is the
  function ratTruthy; truthiness of a string (empty is falsy) is strTruthy.
* The external Amap routing HTTP endpoint is an oracle parameter.  For the
  retry-loop analysis it is a function from the attempt index to a response
  (get_amap_driving_time below); everywhere else a planning run abstracts
  the per-call outcome of one full retry loop by a function
  net : Location → Location → Option ℚ (none = retries exhausted or
  permanent error), wrapped by drivingTime which adds the missing-coordinate
  fallback of the source.
-/

namespace TravelPlan

unseal Rat.add Rat.mul Rat.sub Rat.ofScientific Rat.inv

/-- Python truthiness of an optional float: None and 0.0 are falsy.
Used for checks of the form `if not d.get(k)` in the source. -/
def ratTruthy : Option ℚ → Bool
  | none => false
  | some x => x != 0

/-- Python truthiness of a string: the empty string is falsy. -/
def strTruthy (s : String) : Bool := s != ""

/-- Python round(x, 1): rounding to one decimal digit (src/api_tools.py line
101 and src/planning_tools.py line 240).  Mathematical rounding; the
half-way tie difference with Python bankers rounding is never exercised. -/
def round1 (q : ℚ) : ℚ := (round (10 * q) : ℤ) / 10

/-- Location, from src/state.py.  city is always populated by the callers in
the repository; address, name, lat, lon are Optional in the source. -/
structure Location where
  city : String
  address : Option String
  name : Option String
  lat : Option ℚ
  lon : Option ℚ
deriving DecidableEq, Repr

/-! ### Configuration constants, from src/config.py -/

def POST_ARRIVAL_BUFFER_MINUTES : ℚ := 30

def COMPANY_VISIT_DURATION_MINUTES : ℚ := 45

/-- The WEIGHTS dict of src/config.py. -/
structure Weights where
  alpha : ℚ
  beta : ℚ
  gamma : ℚ
  delta : ℚ
deriving DecidableEq, Repr

def WEIGHTS : Weights := { alpha := 0.5, beta := 0.3, gamma := 0.1, delta := 0.05 }

/-! ### RoutingClient: get_amap_driving_time, src/api_tools.py lines 52-143 -/

def MAX_RETRIES : Nat := 3

def INITIAL_WAIT_TIME : ℚ := 1

/-- One response of the Amap route endpoint, as classified by the source:
status "1" with a path (success carrying the duration in seconds), a
rate-limit / quota error (status "0" with LIMIT or QUOTA in the info field),
any other API-reported error, or a requests-level network error. -/
inductive AmapResponse where
  | success (durationSeconds : Nat)
  | rateLimit
  | otherError
  | networkError
deriving DecidableEq, Repr

/-- The `for attempt in range(MAX_RETRIES)` body of get_amap_driving_time.
`attempts` is the list of remaining attempt indices, `wait` the current
backoff wait.  Returns the result, the number of requests issued, and the
list of sleep durations performed, in order.  A rate-limit or network error
retries while further attempts remain (the `attempt < MAX_RETRIES - 1` test
of the source, equivalent to the rest of the range being nonempty); any
other API error returns None immediately. -/
def amapRetry (oracle : Nat → AmapResponse) : List Nat → ℚ → Option ℚ × Nat × List ℚ
  | [], _ => (none, 0, [])
  | attempt :: rest, wait =>
    match oracle attempt with
    | .success sec => (some (round1 ((sec : ℚ) / 60)), 1, [])
    | .otherError => (none, 1, [])
    | .rateLimit =>
      if rest.isEmpty then (none, 1, [])
      else
        let r := amapRetry oracle rest (wait * 2)
        (r.1, r.2.1 + 1, wait :: r.2.2)
    | .networkError =>
      if rest.isEmpty then (none, 1, [])
      else
        let r := amapRetry oracle rest (wait * 2)
        (r.1, r.2.1 + 1, wait :: r.2.2)

/-- get_amap_driving_time, src/api_tools.py lines 52-143, instrumented with
the number of requests issued and the sleeps performed.  If the lat of
either endpoint is falsy (absent or 0.0) the fixed fallback estimate 35.0
is returned without any request; otherwise the retry loop runs over
range(MAX_RETRIES) with initial wait 1.0.  (The AMAP_API_KEY presence check
of the source is assumed to pass: the key is configured in any run that
reaches routing.) -/
def get_amap_driving_time (oracle : Nat → AmapResponse) (origin destination : Location) :
    Option ℚ × Nat × List ℚ :=
  if ¬ (ratTruthy origin.lat && ratTruthy destination.lat) then (some 35, 0, [])
  else amapRetry oracle (List.range MAX_RETRIES) INITIAL_WAIT_TIME

/-- Abstraction of one full get_amap_driving_time call inside a planning run:
`net` gives the outcome of the retry loop for a given origin/destination
(none = retries exhausted or permanent error), and the missing-coordinate
fallback of the source is applied first. -/
def drivingTime (net : Location → Location → Option ℚ) (o d : Location) : Option ℚ :=
  if ¬ (ratTruthy o.lat && ratTruthy d.lat) then some 35 else net o d

/-! ### CandidateFilter: filter_companies_by_area_by_time,
src/planning_tools.py lines 197-249 -/

/-- One raw directory entry of COMPANIES_DB (loaded from companies_data.json
by src/company_manager.py).  The fields read inside the try/except KeyError
block of the filter (name, address, lat, lon) are Option: none models an
absent key, which makes the filter skip the entry.  A present lat of 0.0
(the add_company geocoding-failure default) is a present key whose value is
falsy downstream. -/
structure DBCompany where
  id : String
  name : Option String
  address : Option String
  lat : Option ℚ
  lon : Option ℚ
  industry : String
  description : String
deriving DecidableEq, Repr

/-- A directory entry retained by the filter: the deep copy of the entry,
with the constructed location attached and the drive time annotation. -/
structure FilteredCompany where
  id : String
  name : String
  location : Location
  driving_time_min : ℚ
deriving DecidableEq, Repr

/-- filter_companies_by_area_by_time, src/planning_tools.py lines 197-249.
`db` models the COMPANIES_DB global (city → entries, missing city → []).
An entry is skipped when a needed key is absent (KeyError), when the
routing call returns None, or when the drive time exceeds the bound;
otherwise it is kept with round(driving_time, 1) attached.  Note that only
`if not city` guards the center: the center coordinates are NOT checked. -/
def filter_companies_by_area_by_time (net : Location → Location → Option ℚ)
    (db : String → List DBCompany) (center_location : Location)
    (max_driving_minutes : ℚ) : List FilteredCompany :=
  if ¬ strTruthy center_location.city then []
  else
    (db center_location.city).filterMap fun c =>
      match c.name, c.address, c.lat, c.lon with
      | some nm, some addr, some la, some lo =>
        let company_loc : Location :=
          { city := center_location.city, address := some addr, name := some nm,
            lat := some la, lon := some lo }
        match drivingTime net center_location company_loc with
        | none => none
        | some d =>
          if d ≤ max_driving_minutes then
            some { id := c.id, name := nm, location := company_loc,
                   driving_time_min := round1 d }
          else none
      | _, _, _, _ => none

/-! ### ScoringEngine data: the second filter and the score merge of
pre_meeting_plan, src/nodes.py lines 354-401 -/

/-- A candidate admitted to available_companies by the second filter of
pre_meeting_plan (src/nodes.py lines 357-373): both travel legs resolved
and the round trip plus visit within the available minutes. -/
structure AvailableCompany where
  id : String
  name : String
  location : Location
  T_hub_to_i : ℚ
  T_i_to_meeting : ℚ
  T_total_trip : ℚ
  T_buffer : ℚ
deriving DecidableEq, Repr

/-- The second filter of pre_meeting_plan, src/nodes.py lines 354-373: for
each geometrically filtered company, query both travel legs; skip the
company if either query returns None; admit it iff
T_hub_to_i + COMPANY_VISIT_DURATION_MINUTES + T_i_to_meeting fits the
available minutes, recording both legs, the total and the buffer. -/
def pre_meeting_second_filter (net : Location → Location → Option ℚ)
    (arrival_hub_loc meeting_loc : Location) (available_minutes : ℚ)
    (companies : List FilteredCompany) : List AvailableCompany :=
  companies.filterMap fun company =>
    match drivingTime net arrival_hub_loc company.location,
          drivingTime net company.location meeting_loc with
    | some t1, some t2 =>
      if t1 + COMPANY_VISIT_DURATION_MINUTES + t2 ≤ available_minutes then
        some { id := company.id, name := company.name, location := company.location,
               T_hub_to_i := t1, T_i_to_meeting := t2, T_total_trip := t1 + t2,
               T_buffer := available_minutes - (t1 + COMPANY_VISIT_DURATION_MINUTES + t2) }
      else none
    | _, _ => none

/-- One item of the value-judgment oracle output (get_company_scores_by_llm,
src/llm_agent.py).  S_attract and S_feas are none when the float()
conversion of the raw value would raise (ValueError/TypeError), which makes
the merge step drop the item. -/
structure ScoreItem where
  name : String
  S_attract : Option ℚ
  S_feas : Option ℚ
deriving DecidableEq, Repr

/-- A fully merged candidate handed to plan_multi_company_visit: travel legs
and both external value scores all present.  T_prev_to_i mirrors the
company.get('T_prev_to_i') key of src/planning_tools.py line 84; no code in
the repository ever sets it, so it is none throughout the pipeline, but the
field is kept to embed the access faithfully. -/
structure PlannedCompany where
  id : String
  name : String
  location : Location
  T_hub_to_i : ℚ
  T_i_to_meeting : ℚ
  T_total_trip : ℚ
  T_buffer : ℚ
  S_attract : ℚ
  S_feas : ℚ
  T_prev_to_i : Option ℚ := none
deriving DecidableEq, Repr

/-- The name → company dict built at src/nodes.py line 389
(`{c['name']: c for c in available_companies}`): on duplicate names the
last entry wins, so lookup is find? over the reversed list. -/
def original_companies_map (available : List AvailableCompany) (name : String) :
    Option AvailableCompany :=
  available.reverse.find? (fun c => c.name == name)

/-- The merge/back-fill step of pre_meeting_plan, src/nodes.py lines
387-401: each oracle score item is matched back by name (unmatched items
are dropped), the original computed fields are kept, and the item is kept
only when both scores convert to float. -/
def merge_scored_companies (available : List AvailableCompany)
    (scored : List ScoreItem) : List PlannedCompany :=
  scored.filterMap fun item =>
    match original_companies_map available item.name with
    | none => none
    | some orig =>
      match item.S_attract, item.S_feas with
      | some sa, some sf =>
        some { id := orig.id, name := item.name, location := orig.location,
               T_hub_to_i := orig.T_hub_to_i, T_i_to_meeting := orig.T_i_to_meeting,
               T_total_trip := orig.T_total_trip, T_buffer := orig.T_buffer,
               S_attract := sa, S_feas := sf, T_prev_to_i := none }
      | _, _ => none

/-! ### ScoringEngine formula: calculate_final_score,
src/planning_tools.py lines 11-39 -/

/-- calculate_final_score, src/planning_tools.py lines 11-39.  On a
PlannedCompany every key accessed by the source is present, so the
KeyError fallback branch (return -999.0) is unreachable here and the
function is total.  T_buffer is recomputed as in the source. -/
def calculate_final_score (company : PlannedCompany) (t_available : ℚ) : ℚ :=
  let T_buffer := t_available - company.T_total_trip - COMPANY_VISIT_DURATION_MINUTES
  WEIGHTS.alpha * company.S_attract + WEIGHTS.beta * company.S_feas
    - WEIGHTS.gamma * company.T_total_trip + WEIGHTS.delta * T_buffer

/-! ### Sequencer: plan_multi_company_visit,
src/planning_tools.py lines 42-125 -/

/-- One entry of the tentative visit plan returned by the sequencer (name,
tentative timestamps, location); the type and description fields of the
source dict are fixed strings and omitted. -/
structure VisitItem where
  name : String
  start_time : ℚ
  end_time : ℚ
  location : Location
deriving DecidableEq, Repr

/-- The greedy selection loop of plan_multi_company_visit (src/
planning_tools.py lines 61-119), walking the sorted list.  For the first
accepted company the hop is its T_hub_to_i; for every later company the
source falls back to company.get('T_prev_to_i') or company['T_hub_to_i']
(line 84) — no routing query is issued.  The loop breaks at the first
company that does not fit the remaining time. -/
def greedy_visit_loop : List PlannedCompany → List VisitItem → ℚ → ℚ → Location →
    List VisitItem
  | [], acc, _, _, _ => acc
  | company :: rest, acc, current_time, remaining_time, _current_location =>
    let T_prev_to_i :=
      if acc.isEmpty then company.T_hub_to_i
      else if ratTruthy company.T_prev_to_i then company.T_prev_to_i.getD 0
      else company.T_hub_to_i
    let time_needed := T_prev_to_i + COMPANY_VISIT_DURATION_MINUTES
    if time_needed ≤ remaining_time then
      let travel_end := current_time + T_prev_to_i
      let visit_end := travel_end + COMPANY_VISIT_DURATION_MINUTES
      greedy_visit_loop rest
        (acc ++ [{ name := company.name, start_time := travel_end,
                   end_time := visit_end, location := company.location }])
        visit_end (remaining_time - time_needed) company.location
    else acc

/-- plan_multi_company_visit, src/planning_tools.py lines 42-125: compute
S_final for every company, sort by S_final descending (Python sorted with
reverse=True is a stable descending sort; List.insertionSort with the
reversed comparison is also stable and sorted for that relation, and a
stable sort under a total preorder has a unique output, so the two agree),
then run the greedy loop from the hub.  The meeting venue parameter of the
source is accepted but unused (the final-leg block of the source is
`pass`). -/
def plan_multi_company_visit (scored_companies : List PlannedCompany)
    (t_available_total : ℚ) (hub_arrival_dt : ℚ) (hub_location : Location)
    (_meeting_venue_location : Location) : List VisitItem :=
  let sorted_companies := scored_companies.insertionSort
    (fun a b => calculate_final_score b t_available_total ≤ calculate_final_score a t_available_total)
  greedy_visit_loop sorted_companies [] hub_arrival_dt t_available_total hub_location

/-! ### FeasibilityRepair: the truncation loop of pre_meeting_plan,
src/nodes.py lines 419-531 -/

/-- Kind tag of an ItineraryItem produced by the repair walk. -/
inductive ItinKind where
  | transport
  | company_visit
deriving DecidableEq, Repr

/-- An itinerary item built during the repair walk (src/state.py
ItineraryItem restricted to the fields that carry schedule content; the
description string and the details dict are determined by the fields
kept here). -/
structure ItineraryItem where
  kind : ItinKind
  start_time : ℚ
  end_time : ℚ
  location : Location
deriving DecidableEq, Repr

/-- The inner forward walk of one repair iteration, src/nodes.py lines
429-470: starting at the current location and time, for each visit in
order query the hop, abort the whole walk when the query fails
(all_routes_planned = False), otherwise emit the transport segment and the
45-minute visit segment and continue.  Returns the segments plus the final
current time and location on completion. -/
def repair_walk (net : Location → Location → Option ℚ) :
    List VisitItem → Location → ℚ → Option (List ItineraryItem × ℚ × Location)
  | [], current_loc, current_time => some ([], current_time, current_loc)
  | visit_item :: rest, current_loc, current_time =>
    match drivingTime net current_loc visit_item.location with
    | none => none
    | some T_prev_to_i =>
      let travel_end := current_time + T_prev_to_i
      let visit_end := travel_end + COMPANY_VISIT_DURATION_MINUTES
      match repair_walk net rest visit_item.location visit_end with
      | none => none
      | some (items, t, loc) =>
        some ({ kind := .transport, start_time := current_time, end_time := travel_end,
                location := visit_item.location } ::
              { kind := .company_visit, start_time := travel_end, end_time := visit_end,
                location := visit_item.location } :: items, t, loc)

/-- One iteration of the truncation/repair while-loop of pre_meeting_plan,
src/nodes.py lines 422-512: walk the current plan from the hub; the
iteration fails (and the caller pops the last, lowest-scored visit) when
any hop query fails, when the final commute to the meeting venue fails, or
when the computed final arrival exceeds the deadline; otherwise the route
(walk segments plus the final transport segment) and the final arrival are
accepted.  The loop itself is repair_loop below, instrumented with the
number of iterations (forward walks) performed; an empty plan exits the
loop with the empty route and no walk. -/
def repair_iteration (net : Location → Location → Option ℚ)
    (arrival_hub_loc meeting_loc : Location) (arrival_at_hub_dt deadline : ℚ)
    (plan : List VisitItem) : Option (List ItineraryItem × ℚ) :=
  match repair_walk net plan arrival_hub_loc arrival_at_hub_dt with
  | none => none
  | some (items, current_time, current_loc) =>
    match drivingTime net current_loc meeting_loc with
    | none => none
    | some final_commute_min =>
      let final_arrival_time := current_time + final_commute_min
      if final_arrival_time ≤ deadline then
        some (items ++ [{ kind := .transport, start_time := current_time,
                          end_time := final_arrival_time, location := meeting_loc }],
              final_arrival_time)
      else none

/-- The repair while-loop, structured on a fuel argument equal to the length
of the plan (each non-accepting iteration pops exactly one element, so the
fuel never runs out: the fuel-exhausted branch is unreachable and mirrors
the `while` guard on the empty list). -/
def repair_loop_aux (net : Location → Location → Option ℚ)
    (arrival_hub_loc meeting_loc : Location) (arrival_at_hub_dt deadline : ℚ) :
    Nat → List VisitItem → List ItineraryItem × Option ℚ × Nat
  | _, [] => ([], none, 0)
  | 0, _ :: _ => ([], none, 0)
  | fuel + 1, plan@(_ :: _) =>
    match repair_iteration net arrival_hub_loc meeting_loc arrival_at_hub_dt deadline plan with
    | some (route, fa) => (route, some fa, 1)
    | none =>
      let r := repair_loop_aux net arrival_hub_loc meeting_loc arrival_at_hub_dt deadline
        fuel plan.dropLast
      (r.1, r.2.1, r.2.2 + 1)

def repair_loop (net : Location → Location → Option ℚ)
    (arrival_hub_loc meeting_loc : Location) (arrival_at_hub_dt deadline : ℚ)
    (plan : List VisitItem) : List ItineraryItem × Option ℚ × Nat :=
  repair_loop_aux net arrival_hub_loc meeting_loc arrival_at_hub_dt deadline plan.length plan

/-- The planning core of pre_meeting_plan, src/nodes.py lines 309-531,
composed from its stages: deadline and available minutes from the meeting
start and the hub arrival, the time-budget second filter over the
geometrically filtered companies, the oracle-score merge, the greedy
sequencer, and the repair loop.  Returns the final route, the accepted
final arrival (none when the route is empty), and the walk count. -/
def pre_meeting_plan_core (net : Location → Location → Option ℚ)
    (arrival_hub_loc meeting_loc : Location)
    (arrival_at_hub_dt meeting_start_dt : ℚ)
    (first_filtered : List FilteredCompany) (scored : List ScoreItem) :
    List ItineraryItem × Option ℚ × Nat :=
  let latest_arrival_needed := meeting_start_dt - POST_ARRIVAL_BUFFER_MINUTES
  let available_minutes := latest_arrival_needed - arrival_at_hub_dt
  let available_companies :=
    pre_meeting_second_filter net arrival_hub_loc meeting_loc available_minutes first_filtered
  let merged := merge_scored_companies available_companies scored
  let final_visit_plan_data :=
    plan_multi_company_visit merged available_minutes arrival_at_hub_dt arrival_hub_loc meeting_loc
  repair_loop net arrival_hub_loc meeting_loc arrival_at_hub_dt latest_arrival_needed
    final_visit_plan_data

/-! ### TransportSelector: llm_choose_transport (src/llm_agent.py lines
55-109), select_transport_by_llm (src/nodes.py lines 148-211) and
decide_after_llm_select (src/graph.py) -/

/-- One inter-city transit offer as produced by query_flight_api /
query_train_api (src/api_tools.py): both constructors always populate
type, id, departure_time, arrival_time, price-related fields; only the
fields consulted by the selection step are kept. -/
structure TransportOption where
  type : String
  id : String
  departure_time : String
  arrival_time : String
  departure_hub : String
  arrival_hub : String
deriving DecidableEq, Repr

/-- The re-resolution step of llm_choose_transport, src/llm_agent.py lines
87-104: the oracle response (none models a malformed or failed LLM call)
yields only a type and an id, which are matched back against the original
option list by id AND type (the next(...) generator); no match yields
None. -/
def llm_choose_transport (transport_options : List TransportOption)
    (oracle_response : Option (String × String)) : Option TransportOption :=
  match oracle_response with
  | none => none
  | some (selected_type, selected_id) =>
    transport_options.find? fun opt => opt.id == selected_id && opt.type == selected_type

/-- select_transport_by_llm, src/nodes.py lines 148-211, reduced to its
selection outcome: (selected_option_raw, error_message).  The reference-hub
geocoding steps that precede the oracle call are orthogonal to selection
validation and are elided; every option produced by the query APIs has a
departure_time field, so the completeness check of line 202 reduces to the
None check. -/
def select_transport_by_llm (transport_options : List TransportOption)
    (oracle_response : Option (String × String)) :
    Option TransportOption × Option String :=
  if transport_options.isEmpty then
    (none, some "交通选择失败：无任何交通选项可供选择。")
  else
    match llm_choose_transport transport_options oracle_response with
    | none => (none, some "LLM未返回有效或完整的交通选择。")
    | some selected => (some selected, none)

/-- decide_after_llm_select, src/graph.py lines 48-58: route to the precise
transport computation only when selected_option_raw is present. -/
def decide_after_llm_select (selected_option_raw : Option TransportOption) : String :=
  match selected_option_raw with
  | some _ => "calculate_final_transport"
  | none => "end"

/-! ### Concrete data for witnesses and counterexamples.
Companies A, B, C are the end-to-end scenario of spec section 8 property 6:
available minutes 180, visit duration 45. -/

def scnLoc (nm : String) : Location :=
  { city := "S", address := some nm, name := some nm, lat := some 1, lon := some 1 }

def companyA : PlannedCompany :=
  { id := "S001", name := "A", location := scnLoc "A", T_hub_to_i := 20,
    T_i_to_meeting := 25, T_total_trip := 45, T_buffer := 90,
    S_attract := 9, S_feas := 8, T_prev_to_i := none }

def companyB : PlannedCompany :=
  { id := "S002", name := "B", location := scnLoc "B", T_hub_to_i := 10,
    T_i_to_meeting := 15, T_total_trip := 25, T_buffer := 110,
    S_attract := 7, S_feas := 9, T_prev_to_i := none }

def companyC : PlannedCompany :=
  { id := "S003", name := "C", location := scnLoc "C", T_hub_to_i := 50,
    T_i_to_meeting := 60, T_total_trip := 110, T_buffer := 25,
    S_attract := 5, S_feas := 5, T_prev_to_i := none }

def hubLoc : Location := scnLoc "Hub"

def meetingLoc : Location := scnLoc "Venue"

def locP : Location := scnLoc "P"

def locQ : Location := scnLoc "Q"

def oracleAllRateLimited : Nat → AmapResponse := fun _ => .rateLimit

def trainG101 : TransportOption :=
  { type := "Train", id := "G101", departure_time := "07:30", arrival_time := "13:30",
    departure_hub := "S1", arrival_hub := "S2" }

def dbCompleteCompany : DBCompany :=
  { id := "S090", name := some "Z", address := some "Z road 1", lat := some 3,
    lon := some 4, industry := "tech", description := "demo entry" }

def centerUnresolved : Location :=
  { city := "S", address := some "hub road", name := some "Hub", lat := none, lon := none }

def companyX : PlannedCompany :=
  { id := "S010", name := "X", location := scnLoc "X", T_hub_to_i := 10,
    T_i_to_meeting := 15, T_total_trip := 25, T_buffer := 110,
    S_attract := 7, S_feas := 9, T_prev_to_i := none }

def companyY : PlannedCompany :=
  { id := "S011", name := "Y", location := scnLoc "Y", T_hub_to_i := 10,
    T_i_to_meeting := 15, T_total_trip := 25, T_buffer := 110,
    S_attract := 7, S_feas := 9, T_prev_to_i := none }

/-! ### Route-shape predicates used to state the itinerary invariants -/

/-- The segments are time-contiguous starting at t: each segment starts at
the instant the previous one ends. -/
def contiguousFrom : ℚ → List ItineraryItem → Bool
  | _, [] => true
  | t, i :: rest => (i.start_time == t) && contiguousFrom i.end_time rest

/-- The end instant of a contiguous segment list that starts at t. -/
def endTimeFrom : ℚ → List ItineraryItem → ℚ
  | t, [] => t
  | _, i :: rest => endTimeFrom i.end_time rest

/-- An alternating sequence of transport/visit pairs, every visit lasting
exactly the fixed visit duration. -/
def transVisitAlt : List ItineraryItem → Bool
  | [] => true
  | [_] => false
  | a :: b :: rest =>
    (a.kind == ItinKind.transport) && (b.kind == ItinKind.company_visit)
      && (b.end_time == b.start_time + COMPANY_VISIT_DURATION_MINUTES) && transVisitAlt rest

/-! ### Further concrete data for witnesses -/

def fcW : FilteredCompany :=
  { id := "S050", name := "W", location := scnLoc "W", driving_time_min := 12 }

def netW : Location → Location → Option ℚ := fun _ _ => some 12

def itemW : ScoreItem := { name := "W", S_attract := some 9, S_feas := some 8 }

def plannedW : PlannedCompany :=
  { id := "S050", name := "W", location := scnLoc "W", T_hub_to_i := 12,
    T_i_to_meeting := 12, T_total_trip := 24, T_buffer := 111,
    S_attract := 9, S_feas := 8, T_prev_to_i := none }

def visitB : VisitItem :=
  { name := "B", start_time := 10, end_time := 55, location := scnLoc "B" }

/-! ### Theorems -/

/-- The abstraction agrees with the instrumented client: for any per-call
attempt oracle, drivingTime of the loop outcome is the result component of
get_amap_driving_time. -/
theorem drivingTime_eq_get_amap (oracle : Location → Location → Nat → AmapResponse)
    (o d : Location) :
    drivingTime (fun a b => (amapRetry (oracle a b) (List.range MAX_RETRIES) INITIAL_WAIT_TIME).1) o d
      = (get_amap_driving_time (oracle o d) o d).1 := by
  unfold drivingTime get_amap_driving_time
  by_cases h : ratTruthy o.lat && ratTruthy d.lat <;> simp [h]

/-! ### C4 -/

/-- C4: calculate_final_score is a pure function of the numeric fields
S_attract, S_feas, T_total_trip and the budget t_available, equal to
0.5*S_attract + 0.3*S_feas - 0.1*T_total_trip + 0.05*(t_available - T_total_trip - 45);
with t_available = 180 the scenario companies A (9,8,45), B (7,9,25) and
C (5,5,110) score 6.9, 9.2 and -5.75. -/
theorem calculate_final_score_closed_form :
    (∀ (c : PlannedCompany) (t : ℚ),
      calculate_final_score c t
        = 0.5 * c.S_attract + 0.3 * c.S_feas - 0.1 * c.T_total_trip
          + 0.05 * (t - c.T_total_trip - 45)) ∧
    calculate_final_score companyA 180 = 6.9 ∧
    calculate_final_score companyB 180 = 9.2 ∧
    calculate_final_score companyC 180 = -5.75 := by
  refine ⟨fun c t => ?_, ?_, ?_, ?_⟩
  · simp only [calculate_final_score, WEIGHTS, COMPANY_VISIT_DURATION_MINUTES]
    try ring
  · norm_num [calculate_final_score, WEIGHTS, COMPANY_VISIT_DURATION_MINUTES, companyA]
  · norm_num [calculate_final_score, WEIGHTS, COMPANY_VISIT_DURATION_MINUTES, companyB]
  · norm_num [calculate_final_score, WEIGHTS, COMPANY_VISIT_DURATION_MINUTES, companyC]

/-! ### C3 -/

/-- The retry loop issues at most one request per remaining attempt index. -/
theorem amapRetry_requests_le (oracle : Nat → AmapResponse) :
    ∀ (l : List Nat) (w : ℚ), (amapRetry oracle l w).2.1 ≤ l.length := by
  intro l
  induction l with
  | nil => intro w; simp [amapRetry]
  | cons a rest ih =>
    intro w
    simp only [amapRetry, List.length_cons]
    cases oracle a with
    | success sec => simp
    | otherError => simp
    | rateLimit =>
      by_cases h : rest.isEmpty
      · simp [h]
      · simpa [h] using Nat.succ_le_succ (ih (w * 2))
    | networkError =>
      by_cases h : rest.isEmpty
      · simp [h]
      · simpa [h] using Nat.succ_le_succ (ih (w * 2))

/-- C3: for endpoints with resolved (truthy) coordinates,
get_amap_driving_time makes at most MAX_RETRIES = 3 requests; two
rate-limit responses followed by success return the successful estimate
after exactly the backoff sleeps 1s and 2s; three rate-limit responses
return None after exactly 3 requests; a non-rate-limit API error returns
None after a single request with no retry. -/
theorem get_amap_driving_time_retry_behaviour (origin destination : Location)
    (h1 : ratTruthy origin.lat = true) (h2 : ratTruthy destination.lat = true) :
    (∀ (oracle : Nat → AmapResponse) (sec : Nat),
        oracle 0 = .rateLimit → oracle 1 = .rateLimit → oracle 2 = .success sec →
        get_amap_driving_time oracle origin destination
          = (some (round1 ((sec : ℚ) / 60)), 3, [1, 2])) ∧
    (∀ (oracle : Nat → AmapResponse),
        oracle 0 = .rateLimit → oracle 1 = .rateLimit → oracle 2 = .rateLimit →
        get_amap_driving_time oracle origin destination = (none, 3, [1, 2])) ∧
    (∀ (oracle : Nat → AmapResponse),
        oracle 0 = .otherError →
        get_amap_driving_time oracle origin destination = (none, 1, [])) ∧
    (∀ (oracle : Nat → AmapResponse),
        oracle 0 = .rateLimit → oracle 1 = .otherError →
        get_amap_driving_time oracle origin destination = (none, 2, [1])) ∧
    (∀ (oracle : Nat → AmapResponse),
        oracle 0 = .rateLimit → oracle 1 = .rateLimit → oracle 2 = .otherError →
        get_amap_driving_time oracle origin destination = (none, 3, [1, 2])) ∧
    (∀ (oracle : Nat → AmapResponse),
        (get_amap_driving_time oracle origin destination).2.1 ≤ MAX_RETRIES) := by
  have hco : (ratTruthy origin.lat && ratTruthy destination.lat) = true := by
    rw [h1, h2]; rfl
  have hr : List.range MAX_RETRIES = [0, 1, 2] := rfl
  refine ⟨?_, ?_, ?_, ?_, ?_, ?_⟩
  · intro oracle sec e0 e1 e2
    rw [get_amap_driving_time, if_neg (by simp [hco]), hr]
    simp [amapRetry, e0, e1, e2, INITIAL_WAIT_TIME]
  · intro oracle e0 e1 e2
    rw [get_amap_driving_time, if_neg (by simp [hco]), hr]
    simp [amapRetry, e0, e1, e2, INITIAL_WAIT_TIME]
  · intro oracle e0
    rw [get_amap_driving_time, if_neg (by simp [hco]), hr]
    simp [amapRetry, e0]
  · intro oracle e0 e1
    rw [get_amap_driving_time, if_neg (by simp [hco]), hr]
    simp [amapRetry, e0, e1, INITIAL_WAIT_TIME]
  · intro oracle e0 e1 e2
    rw [get_amap_driving_time, if_neg (by simp [hco]), hr]
    simp [amapRetry, e0, e1, e2, INITIAL_WAIT_TIME]
  · intro oracle
    by_cases hc : (ratTruthy origin.lat && ratTruthy destination.lat) = true
    · rw [get_amap_driving_time, if_neg (by simp [hc])]
      simpa using amapRetry_requests_le oracle (List.range MAX_RETRIES) INITIAL_WAIT_TIME
    · rw [get_amap_driving_time, if_pos hc]
      simp [MAX_RETRIES]

theorem get_amap_driving_time_retry_behaviour_witness :
    ratTruthy locP.lat = true ∧ ratTruthy locQ.lat = true ∧
    get_amap_driving_time oracleAllRateLimited locP locQ = (none, 3, [1, 2]) :=
  ⟨by decide, by decide,
    (get_amap_driving_time_retry_behaviour locP locQ (by decide) (by decide)).2.1
      oracleAllRateLimited rfl rfl rfl⟩

/-! ### C6 -/

/-- C6: when the transit-choice oracle returns a (type, id) pair matching no
offer in the original set by both type and id, the selection node produces
no selected offer and an error message, and the graph routes to end, so
calculate_final_transport is never executed for that run. -/
theorem transport_selection_mismatch_fails (transport_options : List TransportOption)
    (sel_type sel_id : String)
    (h : ∀ opt ∈ transport_options, ¬ (opt.id = sel_id ∧ opt.type = sel_type)) :
    (select_transport_by_llm transport_options (some (sel_type, sel_id))).1 = none ∧
    (select_transport_by_llm transport_options (some (sel_type, sel_id))).2.isSome = true ∧
    decide_after_llm_select
      (select_transport_by_llm transport_options (some (sel_type, sel_id))).1 = "end" ∧
    decide_after_llm_select
      (select_transport_by_llm transport_options (some (sel_type, sel_id))).1
      ≠ "calculate_final_transport" := by
  have hfind : llm_choose_transport transport_options (some (sel_type, sel_id)) = none := by
    simp only [llm_choose_transport]
    apply List.find?_eq_none.mpr
    intro x hx
    simp only [Bool.and_eq_true, beq_iff_eq, not_and]
    intro hid hty
    exact h x hx ⟨hid, hty⟩
  by_cases he : transport_options.isEmpty <;>
    simp [select_transport_by_llm, he, hfind, decide_after_llm_select]

theorem transport_selection_mismatch_fails_witness :
    (∀ opt ∈ [trainG101], ¬ (opt.id = "D88" ∧ opt.type = "Flight")) ∧
    decide_after_llm_select
      (select_transport_by_llm [trainG101] (some ("Flight", "D88"))).1 = "end" :=
  ⟨by decide,
    (transport_selection_mismatch_fails [trainG101] "Flight" "D88" (by decide)).2.2.1⟩

/-! ### C5 -/

/-- C5: at the scenario input (priority order B, A, C), the greedy sequencer
schedules the hop into the second accepted company A with duration
75 - 55 = 20 = A.T_hub_to_i, i.e. the hub→A leg of company A, and the
sequencer takes no routing oracle argument at all, so no fresh
previous-waypoint→candidate query is ever issued (src/planning_tools.py
line 84 substitutes company[T_hub_to_i] for the missing pairwise leg). -/
theorem plan_second_hop_reuses_hub_leg :
    plan_multi_company_visit [companyA, companyB, companyC] 180 0 hubLoc meetingLoc
      = [{ name := "B", start_time := 10, end_time := 55, location := scnLoc "B" },
         { name := "A", start_time := 75, end_time := 120, location := scnLoc "A" }]
    ∧ (75 : ℚ) - 55 = companyA.T_hub_to_i :=
  ⟨by decide, by norm_num [companyA]⟩

/-! ### C7 -/

/-- C7 counterexample: a center with a city but unresolved coordinates does
NOT make the filter return the empty list: a complete directory entry is
admitted with the 35-minute fallback drive time even though the routing
oracle fails on every query. -/
theorem filter_admits_with_unresolved_center :
    filter_companies_by_area_by_time (fun _ _ => none) (fun _ => [dbCompleteCompany])
      centerUnresolved 45 ≠ [] := by decide

/-- C7 amended: if the center city is falsy the filter returns []; but for a
center with a truthy city and unresolved (falsy) latitude, every complete
directory entry is given the fallback estimate 35.0 and admitted exactly
when 35 ≤ max_driving_minutes — the routing oracle is never consulted. -/
theorem filter_unresolved_center_fallback
    (net : Location → Location → Option ℚ) (db : String → List DBCompany)
    (center : Location) (max_driving_minutes : ℚ)
    (hcity : strTruthy center.city = true)
    (hlat : ratTruthy center.lat = false) :
    filter_companies_by_area_by_time net db center max_driving_minutes
      = if (35 : ℚ) ≤ max_driving_minutes then
          (db center.city).filterMap (fun c =>
            match c.name, c.address, c.lat, c.lon with
            | some nm, some addr, some la, some lo =>
              some { id := c.id, name := nm,
                     location := { city := center.city, address := some addr,
                                   name := some nm, lat := some la, lon := some lo },
                     driving_time_min := 35 }
            | _, _, _, _ => none)
        else [] := by
  have h35 : round1 35 = 35 := by norm_num [round1]
  rw [filter_companies_by_area_by_time, if_neg (by simp [hcity])]
  by_cases hm : (35 : ℚ) ≤ max_driving_minutes
  · rw [if_pos hm]
    apply List.filterMap_congr
    intro c _
    cases c.name <;> cases c.address <;> cases c.lat <;> cases c.lon <;>
      simp [drivingTime, hlat, hm, h35]
  · rw [if_neg hm]
    apply List.filterMap_eq_nil_iff.mpr
    intro c _
    cases c.name <;> cases c.address <;> cases c.lat <;> cases c.lon <;>
      simp [drivingTime, hlat, hm]

theorem filter_unresolved_center_fallback_witness :
    strTruthy centerUnresolved.city = true ∧ ratTruthy centerUnresolved.lat = false ∧
    filter_companies_by_area_by_time (fun _ _ => some 10) (fun _ => [dbCompleteCompany])
      centerUnresolved 40
      = [{ id := "S090", name := "Z",
           location := { city := "S", address := some "Z road 1", name := some "Z",
                         lat := some 3, lon := some 4 },
           driving_time_min := 35 }] :=
  ⟨by decide, by decide,
    (filter_unresolved_center_fallback (fun _ _ => some 10) (fun _ => [dbCompleteCompany])
      centerUnresolved 40 (by decide) (by decide)).trans (by decide)⟩

/-! ### C9 -/

/-- C9 counterexample: two candidates with distinct names but equal S_final
(the sort of src/planning_tools.py line 58 has no secondary key: ties keep
input order): the two permutations of the same candidate set produce
different visit orders. -/
theorem plan_visit_order_depends_on_input_order :
    companyX.name ≠ companyY.name ∧
    ([companyX, companyY] : List PlannedCompany).Perm [companyY, companyX] ∧
    (plan_multi_company_visit [companyX, companyY] 180 0 hubLoc meetingLoc).map VisitItem.name
      ≠ (plan_multi_company_visit [companyY, companyX] 180 0 hubLoc meetingLoc).map
          VisitItem.name :=
  ⟨by decide, List.Perm.swap _ _ _, by decide⟩

/-- Two permutations of one another that are both strictly sorted
(descending) by the same rational key are equal. -/
theorem eq_of_perm_of_strict_key_sorted {α : Type} (key : α → ℚ) :
    ∀ {l₁ l₂ : List α}, l₁.Perm l₂ →
      l₁.Pairwise (fun a b => key b < key a) →
      l₂.Pairwise (fun a b => key b < key a) → l₁ = l₂ := by
  intro l₁
  induction l₁ with
  | nil =>
    intro l₂ hp _ _
    exact List.Perm.nil_eq hp
  | cons a t ih =>
    intro l₂ hp h1 h2
    cases l₂ with
    | nil => exact absurd hp.symm (by simp)
    | cons b t₂ =>
      obtain ⟨ht1, h1t⟩ := List.pairwise_cons.mp h1
      obtain ⟨ht2, h2t⟩ := List.pairwise_cons.mp h2
      have hab : a = b := by
        by_contra hne
        have ha2 : a ∈ t₂ := by
          rcases List.mem_cons.mp (hp.mem_iff.mp (List.mem_cons_self a t)) with h | h
          · exact absurd h hne
          · exact h
        have hb1 : b ∈ t := by
          rcases List.mem_cons.mp (hp.symm.mem_iff.mp (List.mem_cons_self b t₂)) with h | h
          · exact absurd h.symm hne
          · exact h
        exact absurd (lt_trans (ht2 a ha2) (ht1 b hb1)) (lt_irrefl _)
      subst hab
      exact congrArg (a :: ·) (ih hp.cons_inv h1t h2t)

/-- C9 amended: the visit order is determined by the candidate contents and
the input order: the sort is by S_final descending with ties broken by
input position (a stable sort), not by name; when the S_final values of
the candidates are pairwise distinct, any two input permutations of the
same candidate set produce the identical output. -/
theorem plan_multi_company_visit_perm_invariant
    (t ha : ℚ) (hub meet : Location) (l₁ l₂ : List PlannedCompany)
    (hperm : l₁.Perm l₂)
    (hdist : l₁.Pairwise
      (fun a b => calculate_final_score a t ≠ calculate_final_score b t)) :
    plan_multi_company_visit l₁ t ha hub meet = plan_multi_company_visit l₂ t ha hub meet := by
  have hsym : ∀ {x y : PlannedCompany},
      calculate_final_score x t ≠ calculate_final_score y t →
      calculate_final_score y t ≠ calculate_final_score x t := fun h => h.symm
  set r := fun a b : PlannedCompany =>
    calculate_final_score b t ≤ calculate_final_score a t with hrdef
  haveI : IsTotal PlannedCompany r := ⟨fun a b => le_total _ _⟩
  haveI : IsTrans PlannedCompany r := ⟨fun _ _ _ h1 h2 => le_trans h2 h1⟩
  have s1 := List.sorted_insertionSort r l₁
  have s2 := List.sorted_insertionSort r l₂
  have p1 := List.perm_insertionSort r l₁
  have p2 := List.perm_insertionSort r l₂
  have d1 : (l₁.insertionSort r).Pairwise
      (fun a b => calculate_final_score a t ≠ calculate_final_score b t) :=
    hdist.perm p1.symm hsym
  have d2 : (l₂.insertionSort r).Pairwise
      (fun a b => calculate_final_score a t ≠ calculate_final_score b t) :=
    (hdist.perm hperm hsym).perm p2.symm hsym
  have st1 : (l₁.insertionSort r).Pairwise
      (fun a b => calculate_final_score b t < calculate_final_score a t) :=
    (List.Pairwise.and s1 d1).imp (fun h => lt_of_le_of_ne h.1 h.2.symm)
  have st2 : (l₂.insertionSort r).Pairwise
      (fun a b => calculate_final_score b t < calculate_final_score a t) :=
    (List.Pairwise.and s2 d2).imp (fun h => lt_of_le_of_ne h.1 h.2.symm)
  have hsorteq : l₁.insertionSort r = l₂.insertionSort r :=
    eq_of_perm_of_strict_key_sorted (fun c => calculate_final_score c t)
      ((p1.trans hperm).trans p2.symm) st1 st2
  simp only [plan_multi_company_visit]
  rw [hsorteq]

theorem plan_multi_company_visit_perm_invariant_witness :
    ([companyA, companyB] : List PlannedCompany).Perm [companyB, companyA] ∧
    plan_multi_company_visit [companyA, companyB] 180 0 hubLoc meetingLoc
      = plan_multi_company_visit [companyB, companyA] 180 0 hubLoc meetingLoc :=
  ⟨List.Perm.swap _ _ _,
    plan_multi_company_visit_perm_invariant 180 0 hubLoc meetingLoc
      [companyA, companyB] [companyB, companyA] (List.Perm.swap _ _ _) (by decide)⟩

/-! ### Helper lemmas about the pipeline stages -/

/-- Membership characterization of the second filter: an admitted company
records exactly the two resolved legs used at admission and passed the
budget test with them. -/
theorem mem_pre_meeting_second_filter {net : Location → Location → Option ℚ}
    {hub meet : Location} {B : ℚ} {companies : List FilteredCompany}
    {a : AvailableCompany}
    (h : a ∈ pre_meeting_second_filter net hub meet B companies) :
    ∃ c ∈ companies,
      drivingTime net hub c.location = some a.T_hub_to_i ∧
      drivingTime net c.location meet = some a.T_i_to_meeting ∧
      a.location = c.location ∧ a.name = c.name ∧ a.id = c.id ∧
      a.T_hub_to_i + COMPANY_VISIT_DURATION_MINUTES + a.T_i_to_meeting ≤ B ∧
      a.T_total_trip = a.T_hub_to_i + a.T_i_to_meeting ∧
      a.T_buffer = B - (a.T_hub_to_i + COMPANY_VISIT_DURATION_MINUTES + a.T_i_to_meeting) := by
  simp only [pre_meeting_second_filter, List.mem_filterMap] at h
  obtain ⟨c, hc, heq⟩ := h
  refine ⟨c, hc, ?_⟩
  rcases h1 : drivingTime net hub c.location with _ | t1
  · simp only [h1] at heq
    exact absurd heq (by simp)
  rcases h2 : drivingTime net c.location meet with _ | t2
  · simp only [h1, h2] at heq
    exact absurd heq (by simp)
  simp only [h1, h2] at heq
  split_ifs at heq with hle
  · have ha := Option.some_inj.mp heq
    subst ha
    exact ⟨rfl, rfl, rfl, rfl, rfl, hle, rfl, rfl⟩

/-- Membership characterization of the score merge: a merged company comes
from one admitted company and one oracle item with both scores parsed, and
keeps the computed travel fields of the admitted company. -/
theorem mem_merge_scored_companies {available : List AvailableCompany}
    {scored : List ScoreItem} {p : PlannedCompany}
    (h : p ∈ merge_scored_companies available scored) :
    ∃ orig ∈ available, ∃ item ∈ scored,
      item.name = p.name ∧ item.S_attract = some p.S_attract ∧
      item.S_feas = some p.S_feas ∧
      p.location = orig.location ∧ p.T_hub_to_i = orig.T_hub_to_i ∧
      p.T_i_to_meeting = orig.T_i_to_meeting ∧ p.T_total_trip = orig.T_total_trip ∧
      p.T_buffer = orig.T_buffer ∧ p.T_prev_to_i = none := by
  simp only [merge_scored_companies, List.mem_filterMap] at h
  obtain ⟨item, hitem, heq⟩ := h
  rcases hfind : original_companies_map available item.name with _ | orig
  · rw [hfind] at heq; simp at heq
  rw [hfind] at heq
  have horig : orig ∈ available := by
    have hmem := List.mem_of_find?_eq_some hfind
    exact List.mem_reverse.mp hmem
  rcases hsa : item.S_attract with _ | sa
  · rw [hsa] at heq; simp at heq
  rcases hsf : item.S_feas with _ | sf
  · rw [hsa, hsf] at heq; simp at heq
  rw [hsa, hsf] at heq
  injection heq with heq
  subst heq
  exact ⟨orig, horig, item, hitem, rfl, hsa, hsf, rfl, rfl, rfl, rfl, rfl, rfl⟩

/-- Every output of the greedy loop is either carried over from the
accumulator or names and locates one of the input companies. -/
theorem greedy_visit_loop_mem :
    ∀ (companies : List PlannedCompany) (acc : List VisitItem) (ct rt : ℚ) (cl : Location),
      ∀ v ∈ greedy_visit_loop companies acc ct rt cl,
        v ∈ acc ∨ ∃ p ∈ companies, v.name = p.name ∧ v.location = p.location := by
  intro companies
  induction companies with
  | nil =>
    intro acc ct rt cl v hv
    exact Or.inl (by simpa [greedy_visit_loop] using hv)
  | cons c rest ih =>
    intro acc ct rt cl v hv
    rw [greedy_visit_loop] at hv
    split_ifs at hv <;>
      [skip; exact Or.inl hv; skip; exact Or.inl hv; skip; exact Or.inl hv] <;>
    · rcases ih _ _ _ _ v hv with hacc | ⟨p, hp, h1, h2⟩
      · rcases List.mem_append.mp hacc with h | h
        · exact Or.inl h
        · right
          refine ⟨c, List.mem_cons_self c rest, ?_, ?_⟩
          · rw [List.mem_singleton.mp h]
          · rw [List.mem_singleton.mp h]
      · exact Or.inr ⟨p, List.mem_cons_of_mem _ hp, h1, h2⟩

/-- Every tentative visit produced by the sequencer names and locates one of
the merged companies. -/
theorem plan_multi_company_visit_mem {companies : List PlannedCompany}
    {t ha : ℚ} {hub meet : Location} {v : VisitItem}
    (hv : v ∈ plan_multi_company_visit companies t ha hub meet) :
    ∃ p ∈ companies, v.name = p.name ∧ v.location = p.location := by
  simp only [plan_multi_company_visit] at hv
  rcases greedy_visit_loop_mem _ _ _ _ _ v hv with h | ⟨p, hp, h1, h2⟩
  · simp at h
  · exact ⟨p, (List.perm_insertionSort _ companies).mem_iff.mp hp, h1, h2⟩

/-- Decomposition of one accepting repair iteration. -/
theorem repair_iteration_some {net : Location → Location → Option ℚ}
    {hub meet : Location} {ha dl : ℚ} {plan : List VisitItem}
    {r0 : List ItineraryItem} {f0 : ℚ}
    (h : repair_iteration net hub meet ha dl plan = some (r0, f0)) :
    ∃ items t loc fc,
      repair_walk net plan hub ha = some (items, t, loc) ∧
      drivingTime net loc meet = some fc ∧
      t + fc ≤ dl ∧
      r0 = items ++ [{ kind := .transport, start_time := t, end_time := t + fc,
                       location := meet }] ∧
      f0 = t + fc := by
  unfold repair_iteration at h
  rcases hw : repair_walk net plan hub ha with _ | ⟨items, t, loc⟩
  · simp only [hw] at h
    exact absurd h (by simp)
  simp only [hw] at h
  rcases hd : drivingTime net loc meet with _ | fc
  · simp only [hd] at h
    exact absurd h (by simp)
  simp only [hd] at h
  split_ifs at h with hle
  · have h' := Option.some_inj.mp h
    injection h' with h1 h2
    exact ⟨items, t, loc, fc, rfl, hd, hle, h1.symm, h2.symm⟩

/-- Structure of an accepted (non-empty) repair-loop result: some non-empty
truncation of the plan walked successfully, the final commute resolved, the
final arrival met the deadline, and the returned route is the walk segments
followed by the final transport segment whose end time is the returned
final arrival. -/
theorem repair_loop_aux_accept {net : Location → Location → Option ℚ}
    {hub meet : Location} {ha dl : ℚ} :
    ∀ (fuel : Nat) (plan : List VisitItem),
      (repair_loop_aux net hub meet ha dl fuel plan).1 ≠ [] →
      ∃ plan' items t loc fc,
        plan' ≠ [] ∧ (∀ v ∈ plan', v ∈ plan) ∧
        repair_walk net plan' hub ha = some (items, t, loc) ∧
        drivingTime net loc meet = some fc ∧ t + fc ≤ dl ∧
        (repair_loop_aux net hub meet ha dl fuel plan).1
          = items ++ [{ kind := .transport, start_time := t, end_time := t + fc,
                        location := meet }] ∧
        (repair_loop_aux net hub meet ha dl fuel plan).2.1 = some (t + fc) := by
  intro fuel
  induction fuel with
  | zero =>
    intro plan hne
    cases plan <;> simp [repair_loop_aux] at hne
  | succ n ih =>
    intro plan hne
    cases plan with
    | nil => simp [repair_loop_aux] at hne
    | cons v rest =>
      rcases hstep : repair_iteration net hub meet ha dl (v :: rest) with _ | ⟨r0, f0⟩
      · rw [repair_loop_aux, hstep] at hne ⊢
        obtain ⟨plan', items, t, loc, fc, hne', hsub, hw, hd, hle, hr, hf⟩ :=
          ih (v :: rest).dropLast hne
        exact ⟨plan', items, t, loc, fc, hne',
          fun x hx => (List.dropLast_sublist (v :: rest)).subset (hsub x hx),
          hw, hd, hle, hr, hf⟩
      · rw [repair_loop_aux, hstep]
        obtain ⟨items, t, loc, fc, hw, hd, hle, hr, hf⟩ := repair_iteration_some hstep
        exact ⟨v :: rest, items, t, loc, fc, by simp, fun x hx => hx, hw, hd, hle,
          by simpa using hr, by simpa using congrArg some hf⟩

/-- The walk bound: repair_loop_aux performs at most one walk per plan
element. -/
theorem repair_loop_aux_walks_le {net : Location → Location → Option ℚ}
    {hub meet : Location} {ha dl : ℚ} :
    ∀ (fuel : Nat) (plan : List VisitItem),
      (repair_loop_aux net hub meet ha dl fuel plan).2.2 ≤ plan.length := by
  intro fuel
  induction fuel with
  | zero => intro plan; cases plan <;> simp [repair_loop_aux]
  | succ n ih =>
    intro plan
    cases plan with
    | nil => simp [repair_loop_aux]
    | cons v rest =>
      rcases hstep : repair_iteration net hub meet ha dl (v :: rest) with _ | ⟨r0, f0⟩
      · rw [repair_loop_aux, hstep]
        have h := ih (v :: rest).dropLast
        simp only [List.dropLast_cons_of_ne_nil, List.length_dropLast] at h ⊢
        calc (repair_loop_aux net hub meet ha dl n (v :: rest).dropLast).2.2 + 1
            ≤ (v :: rest).dropLast.length + 1 := Nat.succ_le_succ (ih _)
          _ ≤ (v :: rest).length := by simp [List.length_dropLast]
      · rw [repair_loop_aux, hstep]
        simp

/-- Visit segments produced by the walk are located at plan entries. -/
theorem repair_walk_visit_items (net : Location → Location → Option ℚ) :
    ∀ (plan : List VisitItem) (loc0 : Location) (t0 : ℚ)
      {items : List ItineraryItem} {t : ℚ} {loc : Location},
      repair_walk net plan loc0 t0 = some (items, t, loc) →
      ∀ i ∈ items, i.kind = ItinKind.company_visit → ∃ v ∈ plan, i.location = v.location := by
  intro plan
  induction plan with
  | nil =>
    intro loc0 t0 items t loc h i hi _
    simp [repair_walk] at h
    rw [h.1] at hi
    simp at hi
  | cons v rest ih =>
    intro loc0 t0 items t loc h i hi hk
    rw [repair_walk] at h
    rcases hd : drivingTime net loc0 v.location with _ | d
    · simp only [hd] at h
      exact absurd h (by simp)
    simp only [hd] at h
    rcases hw : repair_walk net rest v.location (t0 + d + COMPANY_VISIT_DURATION_MINUTES)
      with _ | ⟨⟨items', t', loc'⟩⟩
    · simp only [hw] at h
      exact absurd h (by simp)
    · simp only [hw, Option.some.injEq, Prod.mk.injEq] at h
      obtain ⟨h1, h2, h3⟩ := h
      rw [← h1] at hi
      simp only [List.mem_cons] at hi
      rcases hi with rfl | rfl | hi
      · exact absurd hk (by simp)
      · exact ⟨v, List.mem_cons_self v rest, rfl⟩
      · obtain ⟨w, hw2, hl⟩ := ih _ _ hw i hi hk
        exact ⟨w, List.mem_cons_of_mem _ hw2, hl⟩

/-- Contiguity splits over concatenation at the intermediate end time. -/
theorem contiguousFrom_append (l₂ : List ItineraryItem) :
    ∀ (l₁ : List ItineraryItem) (t : ℚ),
      contiguousFrom t (l₁ ++ l₂)
        = (contiguousFrom t l₁ && contiguousFrom (endTimeFrom t l₁) l₂) := by
  intro l₁
  induction l₁ with
  | nil => intro t; simp [contiguousFrom, endTimeFrom]
  | cons i rest ih =>
    intro t
    simp [contiguousFrom, endTimeFrom, ih, Bool.and_assoc]

/-- The walk emits an alternating, time-contiguous segment list whose end
time is the walk final time. -/
theorem repair_walk_shape (net : Location → Location → Option ℚ) :
    ∀ (plan : List VisitItem) (loc0 : Location) (t0 : ℚ)
      {items : List ItineraryItem} {t : ℚ} {loc : Location},
      repair_walk net plan loc0 t0 = some (items, t, loc) →
      transVisitAlt items = true ∧ contiguousFrom t0 items = true ∧
      endTimeFrom t0 items = t := by
  intro plan
  induction plan with
  | nil =>
    intro loc0 t0 items t loc h
    simp only [repair_walk, Option.some.injEq, Prod.mk.injEq] at h
    obtain ⟨h1, h2, h3⟩ := h
    rw [← h1, ← h2]
    simp [transVisitAlt, contiguousFrom, endTimeFrom]
  | cons v rest ih =>
    intro loc0 t0 items t loc h
    rw [repair_walk] at h
    rcases hd : drivingTime net loc0 v.location with _ | d
    · simp only [hd] at h
      exact absurd h (by simp)
    simp only [hd] at h
    rcases hw : repair_walk net rest v.location (t0 + d + COMPANY_VISIT_DURATION_MINUTES)
      with _ | ⟨⟨items', t', loc'⟩⟩
    · simp only [hw] at h
      exact absurd h (by simp)
    simp only [hw, Option.some.injEq, Prod.mk.injEq] at h
    obtain ⟨h1, h2, h3⟩ := h
    obtain ⟨ha, hb, hc⟩ := ih _ _ hw
    rw [← h1, ← h2]
    refine ⟨?_, ?_, ?_⟩
    · simp [transVisitAlt, ha]
    · simp [contiguousFrom, hb]
    · simp [endTimeFrom, hc]

/-! ### C8 -/

/-- C8: every company that reaches ranking and greedy selection (the score
merge over the admitted pool) has both travel legs resolved by the routing
client, was admitted within the time budget with exactly those legs, and
carries both successfully parsed oracle value scores; a candidate missing
any of these is dropped before scoring (by the second filter or by the
merge) and never receives a defaulted score. -/
theorem scored_candidates_fully_resolved
    (net : Location → Location → Option ℚ) (hub meet : Location) (B : ℚ)
    (companies : List FilteredCompany) (scored : List ScoreItem)
    (p : PlannedCompany)
    (hp : p ∈ merge_scored_companies
      (pre_meeting_second_filter net hub meet B companies) scored) :
    (∃ c ∈ companies,
      drivingTime net hub c.location = some p.T_hub_to_i ∧
      drivingTime net c.location meet = some p.T_i_to_meeting ∧
      p.location = c.location ∧
      p.T_hub_to_i + COMPANY_VISIT_DURATION_MINUTES + p.T_i_to_meeting ≤ B) ∧
    ∃ item ∈ scored, item.name = p.name ∧
      item.S_attract = some p.S_attract ∧ item.S_feas = some p.S_feas := by
  obtain ⟨orig, horig, item, hitem, hnm, hsa, hsf, hloc, hh, him, htt, hbuf, hprev⟩ :=
    mem_merge_scored_companies hp
  obtain ⟨c, hc, hd1, hd2, haloc, _, _, hleB, _, _⟩ := mem_pre_meeting_second_filter horig
  refine ⟨⟨c, hc, ?_, ?_, hloc.trans haloc, ?_⟩, item, hitem, hnm, hsa, hsf⟩
  · rw [hh]; exact hd1
  · rw [him]; exact hd2
  · rw [hh, him]; exact hleB

theorem scored_candidates_fully_resolved_witness :
    plannedW ∈ merge_scored_companies
      (pre_meeting_second_filter netW hubLoc meetingLoc 180 [fcW]) [itemW] ∧
    ∃ item ∈ [itemW], item.name = plannedW.name ∧
      item.S_attract = some plannedW.S_attract ∧ item.S_feas = some plannedW.S_feas :=
  ⟨by decide,
    (scored_candidates_fully_resolved netW hubLoc meetingLoc 180 [fcW] [itemW] plannedW
      (by decide)).2⟩

/-! ### C2 -/

/-- C2: the repair loop performs at most one forward walk per initial plan
element, hence at most n + 1 walks for a plan of size n, and the empty plan
exits immediately with the empty route, no arrival and zero walks (a valid,
non-error outcome). -/
theorem repair_loop_walk_bound (net : Location → Location → Option ℚ)
    (hub meet : Location) (ha dl : ℚ) (plan : List VisitItem) :
    (repair_loop net hub meet ha dl plan).2.2 ≤ plan.length ∧
    (repair_loop net hub meet ha dl plan).2.2 ≤ plan.length + 1 ∧
    repair_loop net hub meet ha dl [] = ([], none, 0) := by
  refine ⟨?_, ?_, rfl⟩
  · exact repair_loop_aux_walks_le plan.length plan
  · exact le_trans (repair_loop_aux_walks_le plan.length plan) (Nat.le_succ _)

/-! ### C1 -/

/-- C1: whenever the planning core returns a non-empty route, the returned
final arrival at the meeting venue is at most the deadline (meeting start
minus the 30-minute post-arrival buffer), and every visit of the route is
located at a candidate of the merged pool whose admission-time legs satisfy
T_hub_to_i + VISIT_DURATION + T_i_to_meeting ≤ available_minutes. -/
theorem pre_meeting_core_feasible
    (net : Location → Location → Option ℚ) (hub meet : Location) (ha ms : ℚ)
    (companies : List FilteredCompany) (scored : List ScoreItem)
    (hne : (pre_meeting_plan_core net hub meet ha ms companies scored).1 ≠ []) :
    (∃ fav, (pre_meeting_plan_core net hub meet ha ms companies scored).2.1 = some fav ∧
      fav ≤ ms - POST_ARRIVAL_BUFFER_MINUTES) ∧
    ∀ item ∈ (pre_meeting_plan_core net hub meet ha ms companies scored).1,
      item.kind = ItinKind.company_visit →
      ∃ p ∈ merge_scored_companies
          (pre_meeting_second_filter net hub meet
            (ms - POST_ARRIVAL_BUFFER_MINUTES - ha) companies) scored,
        item.location = p.location ∧
        p.T_hub_to_i + COMPANY_VISIT_DURATION_MINUTES + p.T_i_to_meeting
          ≤ ms - POST_ARRIVAL_BUFFER_MINUTES - ha := by
  simp only [pre_meeting_plan_core, repair_loop] at hne ⊢
  obtain ⟨plan', items, t, loc, fc, hne', hsub, hw, hd, hle, hr, hf⟩ :=
    repair_loop_aux_accept _ _ hne
  constructor
  · exact ⟨t + fc, hf, hle⟩
  · intro item hitem hkind
    rw [hr] at hitem
    rcases List.mem_append.mp hitem with hin | hfin
    · obtain ⟨v, hv, hlocv⟩ := repair_walk_visit_items net plan' hub ha hw item hin hkind
      have hv0 := hsub v hv
      obtain ⟨p, hp, hnm, hlp⟩ := plan_multi_company_visit_mem hv0
      refine ⟨p, hp, hlocv.trans hlp, ?_⟩
      obtain ⟨orig, horig, _, _, _, _, _, _, hTh, hTi, _, _⟩ :=
        mem_merge_scored_companies hp
      obtain ⟨c, _, _, _, _, _, _, hleB, _, _⟩ := mem_pre_meeting_second_filter horig
      rw [hTh, hTi]
      exact hleB
    · rw [List.mem_singleton.mp hfin] at hkind
      exact absurd hkind (by simp)

theorem pre_meeting_core_feasible_witness :
    (pre_meeting_plan_core netW hubLoc meetingLoc 0 230 [fcW] [itemW]).1 ≠ [] ∧
    ∃ fav, (pre_meeting_plan_core netW hubLoc meetingLoc 0 230 [fcW] [itemW]).2.1 = some fav ∧
      fav ≤ 230 - POST_ARRIVAL_BUFFER_MINUTES :=
  ⟨by decide,
    (pre_meeting_core_feasible netW hubLoc meetingLoc 0 230 [fcW] [itemW] (by decide)).1⟩

/-! ### C10 -/

/-- C10: every non-empty route produced by the repair loop splits as an
alternating, 45-minute-visit, time-contiguous body followed by one final
transport segment: the first segment is a transport segment starting at the
hub-arrival instant, each segment starts when the previous one ends, the
final segment is a transport segment at the meeting venue, and the reported
final arrival is its end time. -/
theorem repair_route_alternating_contiguous
    (net : Location → Location → Option ℚ) (hub meet : Location) (ha dl : ℚ)
    (plan : List VisitItem)
    (hne : (repair_loop net hub meet ha dl plan).1 ≠ []) :
    ∃ items lastSeg,
      (repair_loop net hub meet ha dl plan).1 = items ++ [lastSeg] ∧
      transVisitAlt items = true ∧
      contiguousFrom ha (items ++ [lastSeg]) = true ∧
      (items ++ [lastSeg]).head?.map ItineraryItem.kind = some ItinKind.transport ∧
      lastSeg.kind = ItinKind.transport ∧ lastSeg.location = meet ∧
      (repair_loop net hub meet ha dl plan).2.1 = some lastSeg.end_time := by
  obtain ⟨plan', items, t, loc, fc, hne', hsub, hw, hd, hle, hr, hf⟩ :=
    repair_loop_aux_accept plan.length plan hne
  obtain ⟨halt, hcont, hend⟩ := repair_walk_shape net plan' hub ha hw
  refine ⟨items, _, hr, halt, ?_, ?_, rfl, rfl, hf⟩
  · rw [contiguousFrom_append]
    simp [hcont, contiguousFrom, hend]
  · cases items with
    | nil => simp
    | cons a rest =>
      cases rest with
      | nil => simp [transVisitAlt] at halt
      | cons b rest2 =>
        simp only [transVisitAlt, Bool.and_eq_true, beq_iff_eq] at halt
        simp [halt.1.1.1]

theorem repair_route_alternating_contiguous_witness :
    (repair_loop (fun _ _ => some 10) hubLoc meetingLoc 0 200 [visitB]).1 ≠ [] ∧
    ∃ items lastSeg,
      (repair_loop (fun _ _ => some 10) hubLoc meetingLoc 0 200 [visitB]).1
        = items ++ [lastSeg] ∧
      transVisitAlt items = true ∧
      contiguousFrom 0 (items ++ [lastSeg]) = true ∧
      (items ++ [lastSeg]).head?.map ItineraryItem.kind = some ItinKind.transport ∧
      lastSeg.kind = ItinKind.transport ∧ lastSeg.location = meetingLoc ∧
      (repair_loop (fun _ _ => some 10) hubLoc meetingLoc 0 200 [visitB]).2.1
        = some lastSeg.end_time :=
  ⟨by decide,
    repair_route_alternating_contiguous (fun _ _ => some 10) hubLoc meetingLoc 0 200 [visitB]
      (by decide)⟩

end TravelPlan
